import Mathlib

/-!
# Verification of the DirAct digester

Shallow embedding of the two source files of `WeeveEngineering/diract-digester`:

* `src/unnamed/part_000`  — embedded in namespace `P0`;
* `src/lib/diractdigester.js` — embedded in namespace `Lib`.

A wire packet is a hexadecimal string in the source; here a packet is the
list of its hexadecimal digit values (each digit `< 16` for well-formed
input; the embedding assumes lowercase hexadecimal text, so a digit value
stands for exactly one character).  `substr`/`parseInt` become list slicing
and a big-endian fold.  The JavaScript sparse `interactions` array becomes a
`List (Option Entry)`: assignment past the end pads with `none` (the holes
that `forEach` skips).  The `digests` `Map` becomes an association list
whose `set` updates in place, preserving insertion order like a JS `Map`.
Handler invocations become elements of an explicit emission list; the value
emitted is the digest value at call time (`numberOfInteractions` already
deleted — modelled as `none` — and `isHandled` not yet set).  A heap-indexed
variant (`HeapM`) additionally models object identity for the aliasing
claim: handlers receive the address of the very accumulator object kept in
the map.
-/

def DIRACT_PROXIMITY_SIGNATURE : List Nat := [15, 15, 8, 3, 0, 5, 0, 1]

def DIRACT_DIGEST_SIGNATURE : List Nat := [15, 15, 8, 3, 0, 5, 1, 1]

def DIRACT_PACKET_SIGNATURE_OFFSET : Nat := 24

def DIRACT_DEVICES_PER_PAGE : Nat := 3

/-- JavaScript `s.substr(i, k)` on the digit list (shorter near the end). -/
def substr (s : List Nat) (i k : Nat) : List Nat := (s.drop i).take k

/-- `parseInt(s, 16)` on a digit list, big-endian.  (`parseInt("") = NaN`
in JS; every use in the source feeds the result to `&`, `>>` or a
comparison where `NaN` behaves as `0`, which is what the empty fold gives.) -/
def hexVal (s : List Nat) : Nat := s.foldl (fun a d => 16 * a + d) 0

/-- `toBatteryPercentage` (identical in both files):
`Math.round(100 * (bits & 0x3f) / 63)`, i.e. `⌊(200·data + 63) / 126⌋`. -/
def toBatteryPercentage (bits : Nat) : Nat :=
  let data := bits &&& 0x3f
  (200 * data + 63) / 126

/-- `toAcceleration` (identical in both files), on the already-parsed byte
value.  `null` (sentinel) becomes `none`; the exact dyadic quotients become
rationals. -/
def toAcceleration (byte : Nat) (isUpper : Bool) : Option ℚ :=
  let data := if isUpper then byte >>> 2 else byte &&& 0x3f
  if data = 32 then none
  else if data > 31 then some (((data : ℚ) - 64) / 16)
  else some ((data : ℚ) / 16)

/-- `toRssi` (identical in both files): `(data & 0x3f) - 92`. -/
def toRssi (bits : Nat) : Int := ((bits &&& 0x3f : Nat) : Int) - 92

/-- One digest interaction entry `{instanceId, count}`. -/
structure Entry where
  instanceId : List Nat
  count : Nat
deriving DecidableEq, Repr

/-- One entry of the proximity `nearest` list `{instanceId, rssi}`. -/
structure NearEntry where
  instanceId : List Nat
  rssi : Int
deriving DecidableEq, Repr

/-- Fuel-indexed body of the source's stride-5 `for` loops
(`for(idx = 9; idx < frameLength + 2; idx += 5)`): structural recursion on
the fuel so that the kernel can evaluate it. -/
def scanLoop {α : Type} (f : Nat → α) (limit : Nat) : Nat → Nat → List α
  | 0, _ => []
  | fuel + 1, i =>
    if i < limit then f i :: scanLoop f limit fuel (i + 5) else []

/-- `for(idx = i; idx < limit; idx += 5) acc.push(f(idx))`. -/
def forLoop {α : Type} (f : Nat → α) (limit i : Nat) : List α :=
  scanLoop f limit (limit - i) i

/-- The `for(nearestIndex = 9; nearestIndex < frameLength + 2;
nearestIndex += 5)` scan of the proximity body (identical in both files). -/
def nearestLoop (data : List Nat) (limit i : Nat) : List NearEntry :=
  forLoop (fun idx =>
    { instanceId := substr data (idx * 2) 8,
      rssi := toRssi (hexVal (substr data (idx * 2 + 8) 2)) }) limit i

/-- A decoded digest page (the arguments `processDigestPacket` passes to
`updateDigest`, shared shape between the two files). -/
structure DigestPage where
  pageNumber : Nat
  instanceId : List Nat
  isLastPage : Bool
  digestTimestamp : Nat
  entries : List Entry
deriving DecidableEq, Repr

/-- JavaScript sparse-array assignment `arr[i] = e`: pad with holes up to
index `i` if needed, then set. -/
def setSparse (l : List (Option Entry)) (i : Nat) (e : Entry) :
    List (Option Entry) :=
  (l ++ List.replicate (i + 1 - l.length) none).set i (some e)

/-- `page.forEach(function(entry, index) { arr[offset + index] = entry })`. -/
def writePage (l : List (Option Entry)) (offset : Nat) (page : List Entry) :
    List (Option Entry) :=
  match page with
  | [] => l
  | e :: rest => writePage (setSparse l offset e) (offset + 1) rest

/-- The number of populated slots of a sparse array: what the
`forEach`-based `entryCount` of `isDigestComplete` counts. -/
def popCount (l : List (Option Entry)) : Nat := (l.filterMap id).length

/-- The set of populated indices of a sparse array. -/
def popSet : List (Option Entry) → Finset ℕ
  | [] => ∅
  | none :: rest => (popSet rest).image Nat.succ
  | some _ :: rest => insert 0 ((popSet rest).image Nat.succ)

namespace P0

/-- Accumulator object of `src/unnamed/part_000` (`createDigest`).  The
initially-absent `isHandled` field is modelled as `false`; the `delete
digest.numberOfInteractions` before emission is modelled as `none` (the
`null`/`undefined` distinction is behaviourally irrelevant: handled
accumulators return before `isDigestComplete` is ever consulted again). -/
structure Digest where
  instanceId : List Nat
  digestTimestamp : Nat
  numberOfInteractions : Option Nat
  interactions : List (Option Entry)
  timestamp : Nat
  isHandled : Bool
deriving DecidableEq, Repr

/-- `addDigestPage(digest, isLastPage, pageNumber, page)` of part_000. -/
def addDigestPage (digest : Digest) (isLastPage : Bool) (pageNumber : Nat)
    (page : List Entry) : Digest :=
  let offset := pageNumber * DIRACT_DEVICES_PER_PAGE
  { digest with
      numberOfInteractions :=
        if isLastPage then some (offset + page.length)
        else digest.numberOfInteractions,
      interactions := writePage digest.interactions offset page }

/-- `createDigest(...)` of part_000. -/
def createDigest (instanceId : List Nat) (digestTimestamp : Nat)
    (isLastPage : Bool) (pageNumber : Nat) (page : List Entry)
    (timestamp : Nat) : Digest :=
  addDigestPage
    { instanceId := instanceId, digestTimestamp := digestTimestamp,
      numberOfInteractions := none, interactions := [],
      timestamp := timestamp, isHandled := false }
    isLastPage pageNumber page

/-- `isDigestComplete(digest)` of part_000. -/
def isDigestComplete (digest : Digest) : Bool :=
  match digest.numberOfInteractions with
  | none => false
  | some n => popCount digest.interactions == n

/-- The `instance.digests` JS `Map`, as an association list whose `set`
updates an existing key in place (JS `Map` preserves insertion order). -/
abbrev DigestMap := List (List Nat × Digest)

def mapGet (m : DigestMap) (k : List Nat) : Option Digest :=
  match m with
  | [] => none
  | (k', d) :: rest => if k' = k then some d else mapGet rest k

def mapSet (m : DigestMap) (k : List Nat) (d : Digest) : DigestMap :=
  match m with
  | [] => [(k, d)]
  | (k', d') :: rest =>
      if k' = k then (k, d) :: rest else (k', d') :: mapSet rest k d

/-- Tail of `updateDigest`: the completion test, field deletion, handler
call (recorded in the emission list with the value visible to the handler)
and the `isHandled = true` write that follows the call.  In JS these
mutations happen through the alias held by the map, so the map ends up
holding the emitted object with `isHandled` set. -/
def emitIfComplete (digests : DigestMap) (instanceId : List Nat)
    (digest : Digest) : DigestMap × List Digest :=
  if isDigestComplete digest then
    let emitted := { digest with numberOfInteractions := none }
    (mapSet digests instanceId { emitted with isHandled := true }, [emitted])
  else
    (mapSet digests instanceId digest, [])

/-- `updateDigest(instance, instanceId, digestTimestamp, isLastPage,
pageNumber, page, timestamp)` of part_000, on the digest map, returning the
new map and the digests passed to `handleDirActDigest`. -/
def updateDigest (digests : DigestMap) (instanceId : List Nat)
    (digestTimestamp : Nat) (isLastPage : Bool) (pageNumber : Nat)
    (page : List Entry) (timestamp : Nat) : DigestMap × List Digest :=
  match mapGet digests instanceId with
  | none =>
      emitIfComplete digests instanceId
        (createDigest instanceId digestTimestamp isLastPage pageNumber page
          timestamp)
  | some existing =>
      if existing.digestTimestamp ≠ digestTimestamp then
        emitIfComplete digests instanceId
          (createDigest instanceId digestTimestamp isLastPage pageNumber page
            timestamp)
      else if existing.isHandled then
        (digests, [])
      else
        emitIfComplete digests instanceId
          (addDigestPage existing isLastPage pageNumber page)

/-- The entry scan of `processDigestPacket` in part_000, including the
`count > 128` rescale. -/
def digestPageLoop (data : List Nat) (limit i : Nat) : List Entry :=
  forLoop (fun idx =>
    { instanceId := substr data (idx * 2) 8,
      count :=
        if hexVal (substr data (idx * 2 + 8) 2) > 128 then
          (hexVal (substr data (idx * 2 + 8) 2) &&& 0x7f) <<< 8
        else hexVal (substr data (idx * 2 + 8) 2) }) limit i

/-- Field extraction of `processDigestPacket` in part_000. -/
def decodeDigestPage (packet : List Nat) : DigestPage :=
  let data := packet.drop 30
  let frameLength := hexVal (substr data 2 2) &&& 0x1f
  { pageNumber := hexVal (substr data 2 1) >>> 1
    instanceId := substr data 4 8
    isLastPage := (hexVal (substr data 12 1) &&& 0x8) == 0x8
    digestTimestamp := hexVal (substr data 12 6) &&& 0x7fffff
    entries := digestPageLoop data (frameLength + 2) 9 }

/-- `processDigestPacket(instance, packet, timestamp)` of part_000. -/
def processDigestPacket (digests : DigestMap) (packet : List Nat)
    (timestamp : Nat) : DigestMap × List Digest :=
  let p := decodeDigestPage packet
  updateDigest digests p.instanceId p.digestTimestamp p.isLastPage
    p.pageNumber p.entries timestamp

/-- The object `processProximityPacket` of part_000 hands to
`handleDirActProximity`. -/
structure ProxReport where
  cyclicCount : Nat
  instanceId : List Nat
  acceleration : List (Option ℚ)
  batteryPercentage : Nat
  nearest : List NearEntry
  timestamp : Nat
deriving DecidableEq, Repr

/-- `processProximityPacket(instance, packet, timestamp)` of part_000. -/
def processProximityPacket (packet : List Nat) (timestamp : Nat) :
    ProxReport :=
  let data := packet.drop 30
  let frameLength := hexVal (substr data 2 2) &&& 0x1f
  { cyclicCount := hexVal (substr data 2 1) >>> 1
    instanceId := substr data 4 8
    acceleration := [toAcceleration (hexVal (substr data 12 2)) true,
                     toAcceleration (hexVal (substr data 13 2)) false,
                     toAcceleration (hexVal (substr data 15 2)) true]
    batteryPercentage := toBatteryPercentage (hexVal (substr data 16 2))
    nearest := nearestLoop data (frameLength + 2) 9
    timestamp := timestamp }

/-- A `DirActDigester` instance: the two optional handlers (their presence)
and the digest map. -/
structure Digester where
  hasProximityHandler : Bool
  hasDigestHandler : Bool
  digests : DigestMap
deriving DecidableEq, Repr

/-- Everything handed to a registered handler. -/
inductive Event where
  | proximity (report : ProxReport)
  | digest (d : Digest)
deriving DecidableEq, Repr

/-- `processPacket(instance, packet, timestamp)` of part_000. -/
def processPacket (inst : Digester) (packet : List Nat) (timestamp : Nat) :
    Digester × List Event :=
  let signature := substr packet DIRACT_PACKET_SIGNATURE_OFFSET 8
  if signature = DIRACT_PROXIMITY_SIGNATURE ∧ inst.hasProximityHandler then
    (inst, [Event.proximity (processProximityPacket packet timestamp)])
  else if signature = DIRACT_DIGEST_SIGNATURE ∧ inst.hasDigestHandler then
    let r := processDigestPacket inst.digests packet timestamp
    ({ inst with digests := r.1 }, r.2.map Event.digest)
  else
    (inst, [])

/-- One decoded digest page as fed to `updateDigest` (page-level input for
runs over the reassembler). -/
structure PageMsg where
  instanceId : List Nat
  digestTimestamp : Nat
  isLastPage : Bool
  pageNumber : Nat
  page : List Entry
  timestamp : Nat
deriving DecidableEq, Repr

def stepPage (digests : DigestMap) (msg : PageMsg) : DigestMap × List Digest :=
  updateDigest digests msg.instanceId msg.digestTimestamp msg.isLastPage
    msg.pageNumber msg.page msg.timestamp

/-- Feed a sequence of digest pages, collecting every handler invocation. -/
def runPages (digests : DigestMap) (msgs : List PageMsg) :
    DigestMap × List Digest :=
  match msgs with
  | [] => (digests, [])
  | msg :: rest =>
      let r := stepPage digests msg
      let r' := runPages r.1 rest
      (r'.1, r.2 ++ r'.2)

/-- A page as an `addDigestPage` argument triple
`(isLastPage, pageNumber, entries)`. -/
abbrev PageAdd := Bool × Nat × List Entry

/-- Fold `addDigestPage` over a list of pages (the accumulator's history,
in arrival order). -/
def addPages (digest : Digest) (pages : List PageAdd) : Digest :=
  pages.foldl (fun d p => addDigestPage d p.1 p.2.1 p.2.2) digest

end P0

namespace Lib

/-- Accumulator object of `src/lib/diractdigester.js` (`createDigest`): no
`timestamp` field; otherwise as in `P0.Digest`. -/
structure Digest where
  instanceId : List Nat
  digestTimestamp : Nat
  numberOfInteractions : Option Nat
  interactions : List (Option Entry)
  isHandled : Bool
deriving DecidableEq, Repr

/-- `addDigestPage(interactions, pageNumber, page)` of the lib file: writes
the entries only — it never touches `numberOfInteractions`. -/
def addDigestPage (interactions : List (Option Entry)) (pageNumber : Nat)
    (page : List Entry) : List (Option Entry) :=
  writePage interactions (pageNumber * DIRACT_DEVICES_PER_PAGE) page

/-- `createDigest(...)` of the lib file.  Note the source computes
`numberOfInteractions = pageNumber + page.length` (without the
`× DIRACT_DEVICES_PER_PAGE` factor). -/
def createDigest (instanceId : List Nat) (digestTimestamp : Nat)
    (isLastPage : Bool) (pageNumber : Nat) (page : List Entry) : Digest :=
  { instanceId := instanceId
    digestTimestamp := digestTimestamp
    numberOfInteractions :=
      if isLastPage then some (pageNumber + page.length) else none
    interactions := addDigestPage [] pageNumber page
    isHandled := false }

/-- `isDigestComplete(digest)` of the lib file. -/
def isDigestComplete (digest : Digest) : Bool :=
  match digest.numberOfInteractions with
  | none => false
  | some n => popCount digest.interactions == n

abbrev DigestMap := List (List Nat × Digest)

def mapGet (m : DigestMap) (k : List Nat) : Option Digest :=
  match m with
  | [] => none
  | (k', d) :: rest => if k' = k then some d else mapGet rest k

def mapSet (m : DigestMap) (k : List Nat) (d : Digest) : DigestMap :=
  match m with
  | [] => [(k, d)]
  | (k', d') :: rest =>
      if k' = k then (k, d) :: rest else (k', d') :: mapSet rest k d

/-- Completion test, field deletion, handler call and the `isHandled`
write of `updateDigest` in the lib file (cf. `P0.emitIfComplete`). -/
def emitIfComplete (digests : DigestMap) (instanceId : List Nat)
    (digest : Digest) : DigestMap × List Digest :=
  if isDigestComplete digest then
    let emitted := { digest with numberOfInteractions := none }
    (mapSet digests instanceId { emitted with isHandled := true }, [emitted])
  else
    (mapSet digests instanceId digest, [])

/-- `updateDigest(instance, instanceId, digestTimestamp, isLastPage,
pageNumber, page)` of the lib file.  Its non-creating branch calls
`addDigestPage(digest.interactions, pageNumber, page)`, so a last page
reaching that branch never sets `numberOfInteractions`. -/
def updateDigest (digests : DigestMap) (instanceId : List Nat)
    (digestTimestamp : Nat) (isLastPage : Bool) (pageNumber : Nat)
    (page : List Entry) : DigestMap × List Digest :=
  match mapGet digests instanceId with
  | none =>
      emitIfComplete digests instanceId
        (createDigest instanceId digestTimestamp isLastPage pageNumber page)
  | some existing =>
      if existing.digestTimestamp ≠ digestTimestamp then
        emitIfComplete digests instanceId
          (createDigest instanceId digestTimestamp isLastPage pageNumber page)
      else if existing.isHandled then
        (digests, [])
      else
        emitIfComplete digests instanceId
          { existing with
              interactions :=
                addDigestPage existing.interactions pageNumber page }

/-- The entry scan of `processDigestPacket` in the lib file: the count byte
is used verbatim (no `count > 128` rescale). -/
def digestPageLoop (data : List Nat) (limit i : Nat) : List Entry :=
  forLoop (fun idx =>
    { instanceId := substr data (idx * 2) 8,
      count := hexVal (substr data (idx * 2 + 8) 2) }) limit i

/-- Field extraction of `processDigestPacket` in the lib file. -/
def decodeDigestPage (packet : List Nat) : DigestPage :=
  let data := packet.drop 30
  let frameLength := hexVal (substr data 2 2) &&& 0x1f
  { pageNumber := hexVal (substr data 2 1) >>> 1
    instanceId := substr data 4 8
    isLastPage := (hexVal (substr data 12 1) &&& 0x8) == 0x8
    digestTimestamp := hexVal (substr data 12 6) &&& 0x7fffff
    entries := digestPageLoop data (frameLength + 2) 9 }

/-- `processDigestPacket(instance, packet)` of the lib file. -/
def processDigestPacket (digests : DigestMap) (packet : List Nat) :
    DigestMap × List Digest :=
  let p := decodeDigestPage packet
  updateDigest digests p.instanceId p.digestTimestamp p.isLastPage
    p.pageNumber p.entries

/-- The object `processProximityPacket` of the lib file hands to
`handleDirActProximity` (no `timestamp` field). -/
structure ProxReport where
  cyclicCount : Nat
  instanceId : List Nat
  acceleration : List (Option ℚ)
  batteryPercentage : Nat
  nearest : List NearEntry
deriving DecidableEq, Repr

/-- `processProximityPacket(instance, packet)` of the lib file. -/
def processProximityPacket (packet : List Nat) : ProxReport :=
  let data := packet.drop 30
  let frameLength := hexVal (substr data 2 2) &&& 0x1f
  { cyclicCount := hexVal (substr data 2 1) >>> 1
    instanceId := substr data 4 8
    acceleration := [toAcceleration (hexVal (substr data 12 2)) true,
                     toAcceleration (hexVal (substr data 13 2)) false,
                     toAcceleration (hexVal (substr data 15 2)) true]
    batteryPercentage := toBatteryPercentage (hexVal (substr data 16 2))
    nearest := nearestLoop data (frameLength + 2) 9 }

structure Digester where
  hasProximityHandler : Bool
  hasDigestHandler : Bool
  digests : DigestMap
deriving DecidableEq, Repr

inductive Event where
  | proximity (report : ProxReport)
  | digest (d : Digest)
deriving DecidableEq, Repr

/-- `processPacket(instance, packet)` of the lib file. -/
def processPacket (inst : Digester) (packet : List Nat) :
    Digester × List Event :=
  let signature := substr packet DIRACT_PACKET_SIGNATURE_OFFSET 8
  if signature = DIRACT_PROXIMITY_SIGNATURE ∧ inst.hasProximityHandler then
    (inst, [Event.proximity (processProximityPacket packet)])
  else if signature = DIRACT_DIGEST_SIGNATURE ∧ inst.hasDigestHandler then
    let r := processDigestPacket inst.digests packet
    ({ inst with digests := r.1 }, r.2.map Event.digest)
  else
    (inst, [])

/-- One decoded digest page as fed to the lib file's `updateDigest`. -/
structure PageMsg where
  instanceId : List Nat
  digestTimestamp : Nat
  isLastPage : Bool
  pageNumber : Nat
  page : List Entry
deriving DecidableEq, Repr

def stepPage (digests : DigestMap) (msg : PageMsg) : DigestMap × List Digest :=
  updateDigest digests msg.instanceId msg.digestTimestamp msg.isLastPage
    msg.pageNumber msg.page

def runPages (digests : DigestMap) (msgs : List PageMsg) :
    DigestMap × List Digest :=
  match msgs with
  | [] => (digests, [])
  | msg :: rest =>
      let r := stepPage digests msg
      let r' := runPages r.1 rest
      (r'.1, r.2 ++ r'.2)

end Lib

namespace HeapM

/-!
Heap-indexed embedding of `updateDigest` (shared control flow of the two
files, with part_000's field set): accumulator objects live in a heap and
the `digests` map binds an instance id to the *address* of its accumulator.
Handler invocations carry the address (the reference the handler receives)
together with the field values visible at call time.  This resolves the
object-identity claim that the flat embedding cannot express.
-/

abbrev AddrMap := List (List Nat × Nat)

def mapGetA (m : AddrMap) (k : List Nat) : Option Nat :=
  match m with
  | [] => none
  | (k', a) :: rest => if k' = k then some a else mapGetA rest k

def mapSetA (m : AddrMap) (k : List Nat) (a : Nat) : AddrMap :=
  match m with
  | [] => [(k, a)]
  | (k', a') :: rest =>
      if k' = k then (k, a) :: rest else (k', a') :: mapSetA rest k a

structure State where
  heap : List P0.Digest
  digests : AddrMap
deriving DecidableEq, Repr

/-- Completion test and emission on the object at address `addr`: delete
`numberOfInteractions`, call the handler with the (address of the) object,
then set `isHandled` on that same object. -/
def emitIfComplete (s : State) (addr : Nat) : State × List (Nat × P0.Digest) :=
  match s.heap[addr]? with
  | none => (s, [])
  | some d =>
      if P0.isDigestComplete d then
        let called := { d with numberOfInteractions := none }
        (⟨s.heap.set addr { called with isHandled := true }, s.digests⟩,
         [(addr, called)])
      else (s, [])

/-- `updateDigest` over the heap: creation allocates a fresh object and
binds the id to its address; the page-adding branch mutates the object in
place; the handled branch neither mutates nor emits. -/
def updateDigest (s : State) (instanceId : List Nat) (digestTimestamp : Nat)
    (isLastPage : Bool) (pageNumber : Nat) (page : List Entry)
    (timestamp : Nat) : State × List (Nat × P0.Digest) :=
  match mapGetA s.digests instanceId with
  | none =>
      let addr := s.heap.length
      let d := P0.createDigest instanceId digestTimestamp isLastPage
        pageNumber page timestamp
      emitIfComplete ⟨s.heap ++ [d], mapSetA s.digests instanceId addr⟩ addr
  | some addr =>
      match s.heap[addr]? with
      | none => (s, [])
      | some existing =>
          if existing.digestTimestamp ≠ digestTimestamp then
            let addr' := s.heap.length
            let d := P0.createDigest instanceId digestTimestamp isLastPage
              pageNumber page timestamp
            emitIfComplete
              ⟨s.heap ++ [d], mapSetA s.digests instanceId addr'⟩ addr'
          else if existing.isHandled then (s, [])
          else
            emitIfComplete
              ⟨s.heap.set addr
                 (P0.addDigestPage existing isLastPage pageNumber page),
               s.digests⟩ addr

end HeapM

/-! ## Concrete inputs used by counterexamples and witnesses -/

/-- A device instance id (8 hexadecimal digits). -/
def devA : List Nat := [0, 0, 0, 0, 0, 0, 0, 1]

/-- Distinct interaction entries. -/
def entX (k : Nat) : Entry := { instanceId := [0, 0, 0, 0, 0, 0, 1, k], count := k }

/-- A single-page digest for device `devA` at epoch `T1 = 1`: last page,
page number 0, one entry, hence complete on arrival. -/
def c1pageT1 : P0.PageMsg :=
  { instanceId := devA, digestTimestamp := 1, isLastPage := true,
    pageNumber := 0, page := [entX 1], timestamp := 100 }

/-- A single-page digest for the same device at epoch `T2 = 2`. -/
def c1pageT2 : P0.PageMsg :=
  { instanceId := devA, digestTimestamp := 2, isLastPage := true,
    pageNumber := 0, page := [entX 2], timestamp := 101 }

/-- Epoch T1 completes, epoch T2 supersedes it, then a late page still
stamped T1 arrives. -/
def c1msgs : List P0.PageMsg := [c1pageT1, c1pageT2, c1pageT1]

/-- Page 0 of a 2-page digest: not last, 3 entries. -/
def c2page0 : P0.PageMsg :=
  { instanceId := devA, digestTimestamp := 7, isLastPage := false,
    pageNumber := 0, page := [entX 0, entX 1, entX 2], timestamp := 50 }

/-- Page 1 of the same digest: last, 2 entries. -/
def c2page1 : P0.PageMsg :=
  { instanceId := devA, digestTimestamp := 7, isLastPage := true,
    pageNumber := 1, page := [entX 3, entX 4], timestamp := 50 }

/-- The digest part_000 emits for the 2-page digest, in either order. -/
def c2digest : P0.Digest :=
  { instanceId := devA, digestTimestamp := 7, numberOfInteractions := none,
    interactions := [some (entX 0), some (entX 1), some (entX 2),
                     some (entX 3), some (entX 4)],
    timestamp := 50, isHandled := false }

/-- The same two pages for the lib file's `updateDigest`. -/
def c2libPage0 : Lib.PageMsg :=
  { instanceId := devA, digestTimestamp := 7, isLastPage := false,
    pageNumber := 0, page := [entX 0, entX 1, entX 2] }

def c2libPage1 : Lib.PageMsg :=
  { instanceId := devA, digestTimestamp := 7, isLastPage := true,
    pageNumber := 1, page := [entX 3, entX 4] }

/-- Ill-paginated pages: page 1 with 3 entries (not last), then a last
page 1 with a single entry (expected count 4), then page 0 with a single
entry — the third page completes the digest with populated indices
{0, 3, 4, 5}. -/
def c5msgs : List P0.PageMsg :=
  [{ instanceId := devA, digestTimestamp := 9, isLastPage := false,
     pageNumber := 1, page := [entX 3, entX 4, entX 5], timestamp := 60 },
   { instanceId := devA, digestTimestamp := 9, isLastPage := true,
     pageNumber := 1, page := [entX 3], timestamp := 61 },
   { instanceId := devA, digestTimestamp := 9, isLastPage := false,
     pageNumber := 0, page := [entX 0], timestamp := 62 }]

/-- Body of a digest packet with one entry whose count byte is `0xff`:
frame length 12, page number 0, last page, digest timestamp 1. -/
def c4data : List Nat :=
  [1, 1, 0, 12,
   0, 0, 0, 0, 0, 0, 0, 1,
   8, 0, 0, 0, 0, 1,
   0, 0, 0, 0, 0, 0, 1, 2, 15, 15]

/-- The corresponding wire packet (30 leading digits before the body; the
digit pair at offset 28 is the signature tail `11` repeated in `c4data`). -/
def c4packet : List Nat := List.replicate 30 0 ++ c4data

/-- A digest packet whose counts are all small (the count byte is `0x02`). -/
def c4smallPacket : List Nat :=
  List.replicate 30 0 ++
  [1, 1, 0, 12,
   0, 0, 0, 0, 0, 0, 0, 1,
   8, 0, 0, 0, 0, 1,
   0, 0, 0, 0, 0, 0, 1, 2, 0, 2]

/-- A packet whose first body byte is `0x3f` (high nibble 3, low nibble 15):
the decoded cyclic count / page number is `3 >> 1 = 1`, while
`(0x3f >> 1) & 0xf = 15`. -/
def c7packet : List Nat :=
  List.replicate 30 0 ++ [0, 1, 3, 15] ++ List.replicate 66 0

/-- A packet whose signature field is all zero: matches neither DirAct
signature. -/
def c9unknownPacket : List Nat := List.replicate 40 0

/-- A packet carrying the proximity signature. -/
def c9proxPacket : List Nat :=
  List.replicate 24 0 ++ DIRACT_PROXIMITY_SIGNATURE ++ List.replicate 40 0

/-- A packet carrying the digest signature. -/
def c9digestPacket : List Nat :=
  List.replicate 24 0 ++ DIRACT_DIGEST_SIGNATURE ++ List.replicate 40 0

/-- The digest value visible to the handler in the `HeapM` witness run. -/
def c10digest : P0.Digest :=
  { instanceId := devA, digestTimestamp := 1, numberOfInteractions := none,
    interactions := [some (entX 1)], timestamp := 100, isHandled := false }

/-- Acceleration decoding as the specification words it (for comparison
with the source's `toAcceleration`): shift right 2 bits when
`isUpperField`, mask to the low 6 bits to obtain `v` in 0–63; absent when
`v = 32`, `(v − 64)/16` when `v` is in 33–63, `v/16` otherwise (0–31). -/
def decodeAccelerationSpec (byte : Nat) (isUpperField : Bool) : Option ℚ :=
  let v := (if isUpperField then byte >>> 2 else byte) &&& 0x3f
  if v = 32 then none
  else if 33 ≤ v ∧ v ≤ 63 then some (((v : ℚ) - 64) / 16)
  else some ((v : ℚ) / 16)

/-- An empty accumulator used to instantiate universally quantified
reassembly theorems. -/
def d0A : P0.Digest :=
  { instanceId := devA, digestTimestamp := 7, numberOfInteractions := none,
    interactions := [], timestamp := 0, isHandled := false }

/-- A handled accumulator (part_000 shape) at epoch 1. -/
def dHandledP0 : P0.Digest :=
  { instanceId := devA, digestTimestamp := 1, numberOfInteractions := none,
    interactions := [some (entX 1)], timestamp := 100, isHandled := true }

/-- A handled accumulator (lib shape) at epoch 1. -/
def dHandledLib : Lib.Digest :=
  { instanceId := devA, digestTimestamp := 1, numberOfInteractions := none,
    interactions := [some (entX 1)], isHandled := true }

/-- Page 0 (not last, 3 entries) as an `addDigestPage` argument triple. -/
def c3pageA : P0.PageAdd := (false, 0, [entX 0, entX 1, entX 2])

/-- Page 1 (last, 2 entries) as an `addDigestPage` argument triple. -/
def c3pageB : P0.PageAdd := (true, 1, [entX 3, entX 4])

def pagesAB : List P0.PageAdd := [c3pageA, c3pageB]

def pagesBA : List P0.PageAdd := [c3pageB, c3pageA]

/-! ## Loop-combinator lemmas -/

theorem scanLoop_fuel {α : Type} (f : Nat → α) (limit : Nat) :
    ∀ f₁ f₂ i, limit - i ≤ f₁ → limit - i ≤ f₂ →
      scanLoop f limit f₁ i = scanLoop f limit f₂ i := by
  intro f₁
  induction f₁ with
  | zero =>
    intro f₂ i h1 h2
    have hi : ¬ i < limit := by omega
    cases f₂ with
    | zero => rfl
    | succ k => simp [scanLoop, hi]
  | succ k ih =>
    intro f₂ i h1 h2
    by_cases hi : i < limit
    · cases f₂ with
      | zero => omega
      | succ k2 =>
        simp only [scanLoop, if_pos hi]
        rw [ih k2 (i + 5) (by omega) (by omega)]
    · cases f₂ with
      | zero => simp [scanLoop, hi]
      | succ k2 => simp [scanLoop, hi]

theorem forLoop_pos {α : Type} (f : Nat → α) (limit i : Nat)
    (h : i < limit) : forLoop f limit i = f i :: forLoop f limit (i + 5) := by
  have hk : limit - i = (limit - i - 1) + 1 := by omega
  rw [forLoop, hk]
  simp only [scanLoop, if_pos h]
  rw [scanLoop_fuel f limit (limit - i - 1) (limit - (i + 5)) (i + 5)
    (by omega) (by omega)]
  rfl

theorem forLoop_neg {α : Type} (f : Nat → α) (limit i : Nat)
    (h : ¬ i < limit) : forLoop f limit i = [] := by
  have hk : limit - i = 0 := by omega
  rw [forLoop, hk]
  rfl

/-! ## Sparse-array lemmas -/

theorem mem_popSet {l : List (Option Entry)} {i : ℕ} :
    i ∈ popSet l ↔ (l.getD i none).isSome = true := by
  induction l generalizing i with
  | nil => simp [popSet]
  | cons head rest ih =>
    cases head with
    | none =>
      cases i with
      | zero => simp [popSet]
      | succ j => simp [popSet, Finset.mem_image, ih]
    | some e =>
      cases i with
      | zero => simp [popSet]
      | succ j => simp [popSet, Finset.mem_image, ih]

theorem popCount_eq_card (l : List (Option Entry)) :
    popCount l = (popSet l).card := by
  induction l with
  | nil => rfl
  | cons head rest ih =>
    cases head with
    | none =>
      simp only [popCount, List.filterMap_cons, id, popSet] at *
      rw [Finset.card_image_of_injective _ Nat.succ_injective]
      exact ih
    | some e =>
      have h0 : (0 : ℕ) ∉ (popSet rest).image Nat.succ := by
        simp [Finset.mem_image]
      simp only [popCount, List.filterMap_cons, id, popSet, List.length_cons] at *
      rw [Finset.card_insert_of_not_mem h0,
          Finset.card_image_of_injective _ Nat.succ_injective]
      omega

theorem getD_setSparse (l : List (Option Entry)) (i : ℕ) (e : Entry) (j : ℕ) :
    (setSparse l i e).getD j none =
      if j = i then some e else l.getD j none := by
  have hlen : i < (l ++ List.replicate (i + 1 - l.length) none).length := by
    simp [List.length_append, List.length_replicate]; omega
  simp only [setSparse, List.getD_eq_getElem?_getD, List.getElem?_set]
  by_cases hij : i = j
  · subst hij
    have hc : i < l.length + (i + 1 - l.length) := by omega
    simp [hc]
  · have hij' : ¬ (j = i) := fun h => hij h.symm
    simp only [if_neg hij, if_neg hij', List.getElem?_append]
    by_cases hj : j < l.length
    · simp [hj]
    · simp only [if_neg hj, List.getElem?_replicate]
      have : l[j]? = none := List.getElem?_eq_none (by omega)
      rw [this]
      by_cases hj2 : j - l.length < i + 1 - l.length
      · simp [hj2]
      · simp [hj2]

theorem popSet_setSparse (l : List (Option Entry)) (i : ℕ) (e : Entry) :
    popSet (setSparse l i e) = insert i (popSet l) := by
  ext j
  simp only [mem_popSet, getD_setSparse, Finset.mem_insert]
  by_cases hij : j = i
  · simp [hij]
  · simp [hij, mem_popSet]

theorem popSet_writePage (page : List Entry) (l : List (Option Entry))
    (off : ℕ) :
    popSet (writePage l off page) =
      popSet l ∪ Finset.Ico off (off + page.length) := by
  induction page generalizing l off with
  | nil => simp [writePage]
  | cons e rest ih =>
    rw [writePage, ih, popSet_setSparse]
    ext j
    simp only [Finset.mem_union, Finset.mem_insert, Finset.mem_Ico,
      List.length_cons]
    constructor
    · rintro ((h | h) | h)
      · exact Or.inr (by omega)
      · exact Or.inl h
      · exact Or.inr (by omega)
    · rintro (h | h)
      · exact Or.inl (Or.inr h)
      · by_cases hj : j = off
        · exact Or.inl (Or.inl hj)
        · exact Or.inr (by omega)

/-! ## Association-map lemmas -/

theorem P0.mapGet_mapSet_self (m : P0.DigestMap) (k : List Nat)
    (d : P0.Digest) : P0.mapGet (P0.mapSet m k d) k = some d := by
  induction m with
  | nil => simp [P0.mapSet, P0.mapGet]
  | cons p rest ih =>
    by_cases h : p.1 = k
    · simp [P0.mapSet, P0.mapGet, h]
    · simp [P0.mapSet, P0.mapGet, h, ih]

theorem Lib.mapGet_after_mapSet (m : Lib.DigestMap) (k : List Nat)
    (d : Lib.Digest) : Lib.mapGet (Lib.mapSet m k d) k = some d := by
  induction m with
  | nil => simp [Lib.mapSet, Lib.mapGet]
  | cons p rest ih =>
    by_cases h : p.1 = k
    · simp [Lib.mapSet, Lib.mapGet, h]
    · simp [Lib.mapSet, Lib.mapGet, h, ih]

theorem HeapM.mapGetA_mapSetA_self (m : HeapM.AddrMap) (k : List Nat)
    (a : Nat) : HeapM.mapGetA (HeapM.mapSetA m k a) k = some a := by
  induction m with
  | nil => simp [HeapM.mapSetA, HeapM.mapGetA]
  | cons p rest ih =>
    by_cases h : p.1 = k
    · simp [HeapM.mapSetA, HeapM.mapGetA, h]
    · simp [HeapM.mapSetA, HeapM.mapGetA, h, ih]

theorem HeapM.mem_of_mapGetA {m : HeapM.AddrMap} {k : List Nat} {a : Nat}
    (h : HeapM.mapGetA m k = some a) : (k, a) ∈ m := by
  induction m with
  | nil => simp [HeapM.mapGetA] at h
  | cons p rest ih =>
    obtain ⟨k', a'⟩ := p
    by_cases hk : k' = k
    · simp [HeapM.mapGetA, hk] at h
      simp [hk, h]
    · simp [HeapM.mapGetA, hk] at h
      exact List.mem_cons_of_mem _ (ih h)

/-! ## `updateDigest` case lemmas (part_000) -/

/-- Once an accumulator for `(instanceId, digestTimestamp)` is marked
handled, a further page for the same pair mutates nothing and emits
nothing. -/
theorem P0.updateDigest_handled {m : P0.DigestMap} {id : List Nat}
    {ts : Nat} {d : P0.Digest} (h1 : P0.mapGet m id = some d)
    (h2 : d.digestTimestamp = ts) (h3 : d.isHandled = true)
    (b : Bool) (pn : Nat) (pg : List Entry) (t : Nat) :
    P0.updateDigest m id ts b pn pg t = (m, []) := by
  simp [P0.updateDigest, h1, h2, h3]

theorem Lib.updateDigest_absorbs {m : Lib.DigestMap} {id : List Nat}
    {ts : Nat} {d : Lib.Digest} (h1 : Lib.mapGet m id = some d)
    (h2 : d.digestTimestamp = ts) (h3 : d.isHandled = true)
    (b : Bool) (pn : Nat) (pg : List Entry) :
    Lib.updateDigest m id ts b pn pg = (m, []) := by
  simp [Lib.updateDigest, h1, h2, h3]

/-- Any single `updateDigest` step either emits nothing, or emits exactly
one digest, whose epoch is the page's epoch and which was unhandled at the
call; the map then holds it with `isHandled` set. -/
theorem P0.updateDigest_emit_cases (m : P0.DigestMap) (id : List Nat)
    (ts : Nat) (b : Bool) (pn : Nat) (pg : List Entry) (t : Nat) :
    (P0.updateDigest m id ts b pn pg t).2 = [] ∨
    ∃ d', (P0.updateDigest m id ts b pn pg t).2 = [d'] ∧
      P0.mapGet (P0.updateDigest m id ts b pn pg t).1 id =
        some { d' with isHandled := true } ∧
      d'.digestTimestamp = ts := by
  unfold P0.updateDigest
  cases hm : P0.mapGet m id with
  | none =>
    unfold P0.emitIfComplete
    by_cases hc : P0.isDigestComplete
        (P0.createDigest id ts b pn pg t) = true
    · refine Or.inr ⟨{ P0.createDigest id ts b pn pg t with
        numberOfInteractions := none }, ?_, ?_, rfl⟩
      · simp [hc]
      · simp only [if_pos hc]
        exact P0.mapGet_mapSet_self _ _ _
    · exact Or.inl (by simp [hc])
  | some existing =>
    by_cases hts : existing.digestTimestamp ≠ ts
    · simp only [if_pos hts]
      unfold P0.emitIfComplete
      by_cases hc : P0.isDigestComplete
          (P0.createDigest id ts b pn pg t) = true
      · refine Or.inr ⟨{ P0.createDigest id ts b pn pg t with
          numberOfInteractions := none }, ?_, ?_, rfl⟩
        · simp [hc]
        · simp only [if_pos hc]
          exact P0.mapGet_mapSet_self _ _ _
      · exact Or.inl (by simp [hc])
    · by_cases hh : existing.isHandled = true
      · exact Or.inl (by simp [hts, hh])
      · simp only [if_neg hts, if_neg hh]
        unfold P0.emitIfComplete
        by_cases hc : P0.isDigestComplete
            (P0.addDigestPage existing b pn pg) = true
        · refine Or.inr ⟨{ P0.addDigestPage existing b pn pg with
            numberOfInteractions := none }, ?_, ?_, of_not_not hts⟩
          · simp [hc]
          · simp only [if_pos hc]
            exact P0.mapGet_mapSet_self _ _ _
        · exact Or.inl (by simp [hc])

/-- Pages for a handled `(instanceId, digestTimestamp)` pair are absorbed:
the whole run mutates nothing and emits nothing. -/
theorem P0.runPages_absorbed (msgs : List P0.PageMsg) (m : P0.DigestMap)
    (id : List Nat) (ts : Nat) (d : P0.Digest)
    (hall : ∀ p ∈ msgs, p.instanceId = id ∧ p.digestTimestamp = ts)
    (h1 : P0.mapGet m id = some d) (h2 : d.digestTimestamp = ts)
    (h3 : d.isHandled = true) :
    P0.runPages m msgs = (m, []) := by
  induction msgs with
  | nil => rfl
  | cons p rest ih =>
    have hp := hall p (List.mem_cons_self _ _)
    have hstep : P0.stepPage m p = (m, []) := by
      rw [P0.stepPage, hp.1, hp.2]
      exact P0.updateDigest_handled h1 h2 h3 _ _ _ _
    rw [P0.runPages, hstep]
    simp [ih (fun q hq => hall q (List.mem_cons_of_mem _ hq))]

/-! ## `addPages` fold lemmas (part_000) -/

theorem P0.addPages_nil (d : P0.Digest) : P0.addPages d [] = d := rfl

theorem P0.addPages_cons (d : P0.Digest) (p : P0.PageAdd)
    (rest : List P0.PageAdd) :
    P0.addPages d (p :: rest) =
      P0.addPages (P0.addDigestPage d p.1 p.2.1 p.2.2) rest := rfl

theorem P0.addDigestPage_numberOfInteractions (d : P0.Digest) (b : Bool)
    (pn : Nat) (pg : List Entry) :
    (P0.addDigestPage d b pn pg).numberOfInteractions =
      if b then some (pn * 3 + pg.length) else d.numberOfInteractions := rfl

/-- When every last page of the history announces the same expected count
`v`, the accumulated `numberOfInteractions` is `v` as soon as some last
page occurred, regardless of order. -/
theorem P0.addPages_numberOfInteractions (l : List P0.PageAdd)
    (d : P0.Digest) (v : Nat)
    (hv : ∀ p ∈ l, p.1 = true → p.2.1 * 3 + p.2.2.length = v) :
    (P0.addPages d l).numberOfInteractions =
      if l.any (fun p => p.1) then some v else d.numberOfInteractions := by
  induction l generalizing d with
  | nil => simp [P0.addPages_nil]
  | cons p rest ih =>
    rw [P0.addPages_cons]
    have hrest : ∀ q ∈ rest, q.1 = true → q.2.1 * 3 + q.2.2.length = v :=
      fun q hq => hv q (List.mem_cons_of_mem _ hq)
    rw [ih _ hrest]
    by_cases hb : p.1 = true
    · have hpv := hv p (List.mem_cons_self _ _) hb
      by_cases hany : rest.any (fun q => q.1) = true
      · simp [hany, hb]
      · simp [hany, hb, P0.addDigestPage_numberOfInteractions, hpv]
    · have hb' : p.1 = false := by
        cases hp1 : p.1
        · rfl
        · exact absurd hp1 hb
      by_cases hany : rest.any (fun q => q.1) = true
      · simp [hany, hb']
      · simp [hany, hb', P0.addDigestPage_numberOfInteractions]

theorem P0.addDigestPage_interactions (d : P0.Digest) (b : Bool) (pn : Nat)
    (pg : List Entry) :
    (P0.addDigestPage d b pn pg).interactions =
      writePage d.interactions (pn * 3) pg := rfl

/-- The populated indices accumulated by a page history: the initial ones
together with each page's index interval. -/
theorem P0.addPages_popSet (l : List P0.PageAdd) (d : P0.Digest) :
    popSet (P0.addPages d l).interactions =
      popSet d.interactions ∪
        (l.map (fun p => Finset.Ico (p.2.1 * 3) (p.2.1 * 3 + p.2.2.length))).foldr
          (· ∪ ·) ∅ := by
  induction l generalizing d with
  | nil => simp [P0.addPages_nil]
  | cons p rest ih =>
    rw [P0.addPages_cons, ih]
    rw [P0.addDigestPage_interactions, popSet_writePage]
    simp [Finset.union_assoc]

theorem foldr_union_perm {l₁ l₂ : List (Finset ℕ)} (h : l₁.Perm l₂) :
    l₁.foldr (· ∪ ·) ∅ = l₂.foldr (· ∪ ·) ∅ := by
  induction h with
  | nil => rfl
  | cons x h ih => simp [List.foldr_cons, ih]
  | swap x y l =>
    simp only [List.foldr_cons]
    rw [Finset.union_left_comm]
  | trans h1 h2 ih1 ih2 => rw [ih1, ih2]

/-- `isDigestComplete` looks only at the expected count and the number of
populated indices. -/
theorem P0.isDigestComplete_congr (d₁ d₂ : P0.Digest)
    (hn : d₁.numberOfInteractions = d₂.numberOfInteractions)
    (hp : popCount d₁.interactions = popCount d₂.interactions) :
    P0.isDigestComplete d₁ = P0.isDigestComplete d₂ := by
  rw [P0.isDigestComplete, P0.isDigestComplete, hn, hp]

/-! ## Digest-entry extraction: the two files compared -/

theorem Lib.digestPageLoop_cons (data : List Nat) (limit i : Nat)
    (h : i < limit) :
    Lib.digestPageLoop data limit i =
      { instanceId := substr data (i * 2) 8,
        count := hexVal (substr data (i * 2 + 8) 2) } ::
        Lib.digestPageLoop data limit (i + 5) := by
  rw [Lib.digestPageLoop, forLoop_pos _ _ _ h]
  rfl

theorem Lib.digestPageLoop_nil (data : List Nat) (limit i : Nat)
    (h : ¬ i < limit) : Lib.digestPageLoop data limit i = [] := by
  rw [Lib.digestPageLoop, forLoop_neg _ _ _ h]

theorem P0.digestPageLoop_pos (data : List Nat) (limit i : Nat)
    (h : i < limit) :
    P0.digestPageLoop data limit i =
      { instanceId := substr data (i * 2) 8,
        count :=
          if hexVal (substr data (i * 2 + 8) 2) > 128 then
            (hexVal (substr data (i * 2 + 8) 2) &&& 0x7f) <<< 8
          else hexVal (substr data (i * 2 + 8) 2) } ::
        P0.digestPageLoop data limit (i + 5) := by
  rw [P0.digestPageLoop, forLoop_pos _ _ _ h]
  rfl

theorem P0.digestPageLoop_neg (data : List Nat) (limit i : Nat)
    (h : ¬ i < limit) : P0.digestPageLoop data limit i = [] := by
  rw [P0.digestPageLoop, forLoop_neg _ _ _ h]

/-- When every extracted count byte is at most 128, the two files' entry
scans agree. -/
theorem digestPageLoop_eq (data : List Nat) (limit : Nat) :
    ∀ k i, limit - i ≤ k →
      (∀ e ∈ Lib.digestPageLoop data limit i, e.count ≤ 128) →
      P0.digestPageLoop data limit i = Lib.digestPageLoop data limit i := by
  intro k
  induction k with
  | zero =>
    intro i hk _
    have hi : ¬ i < limit := by omega
    rw [P0.digestPageLoop_neg data limit i hi,
        Lib.digestPageLoop_nil data limit i hi]
  | succ k ih =>
    intro i hk hsmall
    by_cases hi : i < limit
    · have hmem := Lib.digestPageLoop_cons data limit i hi
      rw [hmem] at hsmall
      simp only [List.mem_cons] at hsmall
      have hhead : hexVal (substr data (i * 2 + 8) 2) ≤ 128 :=
        hsmall _ (Or.inl rfl)
      have htail : ∀ e ∈ Lib.digestPageLoop data limit (i + 5),
          e.count ≤ 128 := fun e he => hsmall e (Or.inr he)
      have hno : ¬ hexVal (substr data (i * 2 + 8) 2) > 128 := by omega
      rw [P0.digestPageLoop_pos data limit i hi,
          Lib.digestPageLoop_cons data limit i hi,
          ih (i + 5) (by omega) htail]
      simp [hno]
    · rw [P0.digestPageLoop_neg data limit i hi,
          Lib.digestPageLoop_nil data limit i hi]

/-! ## Claim theorems -/

/-- Claim C6: for every accumulator whose `isHandled` flag is true,
processing a further digest page with the same `instanceId` and the same
`digestTimestamp` leaves the digest map unchanged, invokes no handler, and
keeps the accumulator in the map — in both source files (the functions are
total, so no failure is raised). -/
theorem claim6_theorem (mP : P0.DigestMap) (mL : Lib.DigestMap)
    (id : List Nat) (ts : Nat) (dP : P0.Digest) (dL : Lib.Digest)
    (b : Bool) (pn : Nat) (pg : List Entry) (t : Nat)
    (h1 : P0.mapGet mP id = some dP) (h2 : dP.digestTimestamp = ts)
    (h3 : dP.isHandled = true)
    (h4 : Lib.mapGet mL id = some dL) (h5 : dL.digestTimestamp = ts)
    (h6 : dL.isHandled = true) :
    P0.updateDigest mP id ts b pn pg t = (mP, []) ∧
    P0.mapGet (P0.updateDigest mP id ts b pn pg t).1 id = some dP ∧
    Lib.updateDigest mL id ts b pn pg = (mL, []) ∧
    Lib.mapGet (Lib.updateDigest mL id ts b pn pg).1 id = some dL := by
  have hP := P0.updateDigest_handled h1 h2 h3 b pn pg t
  have hL := Lib.updateDigest_absorbs h4 h5 h6 b pn pg
  refine ⟨hP, ?_, hL, ?_⟩
  · rw [hP]
    exact h1
  · rw [hL]
    exact h4

theorem claim6_witness :
    P0.mapGet [(devA, dHandledP0)] devA = some dHandledP0 ∧
    Lib.mapGet [(devA, dHandledLib)] devA = some dHandledLib ∧
    (P0.updateDigest [(devA, dHandledP0)] devA 1 true 0 [entX 2] 200 =
        ([(devA, dHandledP0)], []) ∧
      P0.mapGet (P0.updateDigest [(devA, dHandledP0)] devA 1 true 0
        [entX 2] 200).1 devA = some dHandledP0 ∧
      Lib.updateDigest [(devA, dHandledLib)] devA 1 true 0 [entX 2] =
        ([(devA, dHandledLib)], []) ∧
      Lib.mapGet (Lib.updateDigest [(devA, dHandledLib)] devA 1 true 0
        [entX 2]).1 devA = some dHandledLib) :=
  ⟨by decide, by decide,
   claim6_theorem [(devA, dHandledP0)] [(devA, dHandledLib)] devA 1
     dHandledP0 dHandledLib true 0 [entX 2] 200
     (by decide) (by decide) (by decide) (by decide) (by decide) (by decide)⟩

/-- Claim C1 counterexample: feeding part_000's reassembler the pages
(devA, T1 = 1, complete single-page digest), (devA, T2 = 2, complete
single-page digest), and again the page stamped T1, the digest-ready
handler fires twice for the pair (devA, 1): the late page stamped T1,
arriving after T1 was superseded by T2, re-creates a T1 accumulator and
triggers a second digest-ready invocation for (devA, 1). -/
theorem claim1_counterexample :
    ((P0.runPages [] c1msgs).2.filter
      (fun d => d.instanceId == devA && d.digestTimestamp == 1)).length =
      2 := by decide

/-- Claim C1 (amended): the digest-ready handler is invoked at most once
per accumulator lifetime — for any sequence of digest pages all carrying
the same `(instanceId, digestTimestamp)` pair, starting from any map
state, at most one digest-ready invocation occurs.  (After a page with a
different epoch supersedes the accumulator, a late page with the old epoch
starts a fresh accumulator, which can fire again for the old pair.) -/
theorem claim1_amended_theorem (msgs : List P0.PageMsg) (id : List Nat)
    (ts : Nat)
    (hall : ∀ p ∈ msgs, p.instanceId = id ∧ p.digestTimestamp = ts)
    (m : P0.DigestMap) :
    (P0.runPages m msgs).2.length ≤ 1 := by
  induction msgs generalizing m with
  | nil => simp [P0.runPages]
  | cons p rest ih =>
    have hp := hall p (List.mem_cons_self _ _)
    have hrest : ∀ q ∈ rest, q.instanceId = id ∧ q.digestTimestamp = ts :=
      fun q hq => hall q (List.mem_cons_of_mem _ hq)
    rw [P0.runPages]
    have hcases := P0.updateDigest_emit_cases m p.instanceId
      p.digestTimestamp p.isLastPage p.pageNumber p.page p.timestamp
    rcases hcases with hnone | ⟨d', hemit, hmap, hts⟩
    · have hstep : (P0.stepPage m p).2 = [] := hnone
      simp only [hstep, List.nil_append]
      exact ih hrest _
    · have habs : P0.runPages (P0.stepPage m p).1 rest =
          ((P0.stepPage m p).1, []) := by
        refine P0.runPages_absorbed rest _ id ts
          { d' with isHandled := true } hrest ?_ ?_ rfl
        · rw [← hp.1]
          exact hmap
        · rw [← hp.2]
          exact hts
      have hstep : (P0.stepPage m p).2 = [d'] := hemit
      simp [hstep, habs]

theorem claim1_witness :
    (∀ p ∈ [c1pageT1, c1pageT1],
      p.instanceId = devA ∧ p.digestTimestamp = 1) ∧
    (P0.runPages [] [c1pageT1, c1pageT1]).2.length ≤ 1 :=
  ⟨by decide, claim1_amended_theorem [c1pageT1, c1pageT1] devA 1 (by decide) []⟩

/-- Claim C2: for the 2-page digest — page 0 (not last, 3 entries), page 1
(last, 2 entries) — part_000 emits, in either delivery order, exactly one
digest-ready invocation carrying the same completed digest of 5
interactions at absolute indices 0 through 4; the lib file, however, emits
nothing in either order (its `createDigest` computes the expected count as
`pageNumber + page.length` and its `addDigestPage` never sets the expected
count), so the claim fails on the lib file. -/
theorem claim2_theorem :
    (P0.runPages [] [c2page0, c2page1]).2 = [c2digest] ∧
    (P0.runPages [] [c2page1, c2page0]).2 = [c2digest] ∧
    c2digest.interactions =
      [some (entX 0), some (entX 1), some (entX 2), some (entX 3),
       some (entX 4)] ∧
    (Lib.runPages [] [c2libPage0, c2libPage1]).2 = [] ∧
    (Lib.runPages [] [c2libPage1, c2libPage0]).2 = [] := by decide

/-- Claim C3: an accumulator's digest is judged complete exactly when its
expected count is known and the number of distinct populated absolute
indices equals it; `addDigestPage` sets the expected count only on a last
page, to `pageNumber × 3 + entries.length`; and the judgement is
arrival-order independent (for histories whose last pages announce one
expected count — with two contradictory last pages the value kept is the
later one). -/
theorem claim3_theorem (d : P0.Digest) (b : Bool) (pn : Nat)
    (pg : List Entry) (l₁ l₂ : List P0.PageAdd) (hperm : l₁.Perm l₂)
    (hagree : ∀ p ∈ l₁, ∀ q ∈ l₁, p.1 = true → q.1 = true →
      p.2.1 * 3 + p.2.2.length = q.2.1 * 3 + q.2.2.length) :
    (P0.isDigestComplete d = true ↔
      ∃ n, d.numberOfInteractions = some n ∧ popCount d.interactions = n) ∧
    ((P0.addDigestPage d b pn pg).numberOfInteractions =
      if b then some (pn * 3 + pg.length) else d.numberOfInteractions) ∧
    P0.isDigestComplete (P0.addPages d l₁) =
      P0.isDigestComplete (P0.addPages d l₂) := by
  refine ⟨?_, P0.addDigestPage_numberOfInteractions d b pn pg, ?_⟩
  · cases hn : d.numberOfInteractions with
    | none => simp [P0.isDigestComplete, hn]
    | some n => simp [P0.isDigestComplete, hn]
  · have hpop : popCount (P0.addPages d l₁).interactions =
        popCount (P0.addPages d l₂).interactions := by
      rw [popCount_eq_card, popCount_eq_card, P0.addPages_popSet,
          P0.addPages_popSet, foldr_union_perm (hperm.map _)]
    by_cases hany : l₁.any (fun p => p.1) = true
    · rw [List.any_eq_true] at hany
      obtain ⟨p, hpmem, hp1⟩ := hany
      have hv₁ : ∀ q ∈ l₁, q.1 = true →
          q.2.1 * 3 + q.2.2.length = p.2.1 * 3 + p.2.2.length :=
        fun q hq hq1 => hagree q hq p hpmem hq1 hp1
      have hv₂ : ∀ q ∈ l₂, q.1 = true →
          q.2.1 * 3 + q.2.2.length = p.2.1 * 3 + p.2.2.length :=
        fun q hq hq1 => hv₁ q (hperm.mem_iff.mpr hq) hq1
      have hany₁ : l₁.any (fun q => q.1) = true :=
        List.any_eq_true.mpr ⟨p, hpmem, hp1⟩
      have hany₂ : l₂.any (fun q => q.1) = true :=
        List.any_eq_true.mpr ⟨p, hperm.mem_iff.mp hpmem, hp1⟩
      apply P0.isDigestComplete_congr
      · rw [P0.addPages_numberOfInteractions l₁ d _ hv₁,
            P0.addPages_numberOfInteractions l₂ d _ hv₂, hany₁, hany₂]
      · exact hpop
    · have hnone₁ : ∀ q ∈ l₁, q.1 = true →
          q.2.1 * 3 + q.2.2.length = 0 := fun q hq hq1 =>
        absurd (List.any_eq_true.mpr ⟨q, hq, hq1⟩) hany
      have hnone₂ : ∀ q ∈ l₂, q.1 = true →
          q.2.1 * 3 + q.2.2.length = 0 := fun q hq hq1 =>
        absurd (List.any_eq_true.mpr ⟨q, hperm.mem_iff.mpr hq, hq1⟩) hany
      have hany₂ : ¬ l₂.any (fun p => p.1) = true := by
        intro hc
        rw [List.any_eq_true] at hc
        obtain ⟨q, hq, hq1⟩ := hc
        exact absurd
          (List.any_eq_true.mpr ⟨q, hperm.mem_iff.mpr hq, hq1⟩) hany
      apply P0.isDigestComplete_congr
      · rw [P0.addPages_numberOfInteractions l₁ d 0 hnone₁,
            P0.addPages_numberOfInteractions l₂ d 0 hnone₂]
        simp [hany, hany₂]
      · exact hpop

theorem claim3_witness :
    pagesAB.Perm pagesBA ∧
    ((P0.isDigestComplete d0A = true ↔
        ∃ n, d0A.numberOfInteractions = some n ∧
          popCount d0A.interactions = n) ∧
     ((P0.addDigestPage d0A true 1 [entX 3, entX 4]).numberOfInteractions =
        if true then some (1 * 3 + [entX 3, entX 4].length)
        else d0A.numberOfInteractions) ∧
     P0.isDigestComplete (P0.addPages d0A pagesAB) =
       P0.isDigestComplete (P0.addPages d0A pagesBA)) := by
  have hperm : pagesAB.Perm pagesBA := List.Perm.swap c3pageB c3pageA []
  exact ⟨hperm, claim3_theorem d0A true 1 [entX 3, entX 4] pagesAB pagesBA
    hperm (by decide)⟩

/-- Claim C5 counterexample: on the ill-paginated run `c5msgs`, part_000
emits exactly one digest, and the emitted interactions are not gap-free:
index 1 is a hole while index 5 is populated — so whatever the expected
count was, either a hole lies below it or a populated index lies at or
beyond it. -/
theorem claim5_counterexample :
    (P0.runPages [] c5msgs).2.map
      (fun d => ((d.interactions.getD 1 none).isSome,
                 (d.interactions.getD 5 none).isSome)) = [(false, true)] := by
  decide

/-- Claim C5 (amended): whenever a digest assembled from an empty
accumulator is complete and every page of its history wrote only indices
below the expected count `n` (i.e. `pageNumber × 3 + entries.length ≤ n`),
the populated indices are exactly `0 … n − 1`: gap-free and nothing at or
beyond `n`.  (Emission order is by ascending absolute index by
construction of the interactions array.) -/
theorem claim5_amended_theorem (d₀ : P0.Digest) (l : List P0.PageAdd)
    (n : Nat) (h0i : d₀.interactions = [])
    (hn : (P0.addPages d₀ l).numberOfInteractions = some n)
    (hb : ∀ p ∈ l, p.2.1 * 3 + p.2.2.length ≤ n)
    (hc : P0.isDigestComplete (P0.addPages d₀ l) = true) :
    (∀ i, i ∈ popSet (P0.addPages d₀ l).interactions ↔ i < n) ∧
    popCount (P0.addPages d₀ l).interactions = n := by
  have hcount : popCount (P0.addPages d₀ l).interactions = n := by
    rw [P0.isDigestComplete, hn] at hc
    simpa using hc
  have haux : ∀ (ll : List P0.PageAdd),
      (∀ p ∈ ll, p.2.1 * 3 + p.2.2.length ≤ n) →
      (ll.map (fun p =>
        Finset.Ico (p.2.1 * 3) (p.2.1 * 3 + p.2.2.length))).foldr
          (· ∪ ·) ∅ ⊆ Finset.range n := by
    intro ll
    induction ll with
    | nil =>
      intro _
      simp
    | cons q rest ih =>
      intro hq
      simp only [List.map_cons, List.foldr_cons]
      refine Finset.union_subset ?_
        (ih (fun r hr => hq r (List.mem_cons_of_mem _ hr)))
      intro i hi
      rw [Finset.mem_Ico] at hi
      rw [Finset.mem_range]
      have := hq q (List.mem_cons_self _ _)
      omega
  have hsub : popSet (P0.addPages d₀ l).interactions ⊆ Finset.range n := by
    rw [P0.addPages_popSet, h0i]
    have h0 : popSet ([] : List (Option Entry)) = ∅ := rfl
    rw [h0, Finset.empty_union]
    exact haux l hb
  have heq : popSet (P0.addPages d₀ l).interactions = Finset.range n := by
    apply Finset.eq_of_subset_of_card_le hsub
    rw [Finset.card_range, ← popCount_eq_card, hcount]
  refine ⟨?_, hcount⟩
  intro i
  rw [heq, Finset.mem_range]

theorem claim5_witness :
    d0A.interactions = [] ∧
    (P0.addPages d0A pagesAB).numberOfInteractions = some 5 ∧
    (∀ p ∈ pagesAB, p.2.1 * 3 + p.2.2.length ≤ 5) ∧
    P0.isDigestComplete (P0.addPages d0A pagesAB) = true ∧
    ((∀ i, i ∈ popSet (P0.addPages d0A pagesAB).interactions ↔ i < 5) ∧
     popCount (P0.addPages d0A pagesAB).interactions = 5) :=
  ⟨by decide, by decide, by decide, by decide,
   claim5_amended_theorem d0A pagesAB 5 (by decide) (by decide) (by decide)
     (by decide)⟩

/-- Claim C4 counterexample: on the packet `c4packet`, whose single entry
has count byte `0xff`, the two files extract different page entries —
part_000 rescales the count to `(0xff & 0x7f) << 8 = 32512` while the lib
file keeps `255`; moreover on the well-formed 2-page digest the emitted
digests differ (part_000 emits one digest, the lib file emits none), so
the two files do not implement the same digest computation. -/
theorem claim4_counterexample :
    P0.decodeDigestPage c4packet ≠ Lib.decodeDigestPage c4packet ∧
    (P0.decodeDigestPage c4packet).entries.map (fun e => e.count) =
      [32512] ∧
    (Lib.decodeDigestPage c4packet).entries.map (fun e => e.count) =
      [255] ∧
    (P0.runPages [] [c2page0, c2page1]).2.length = 1 ∧
    (Lib.runPages [] [c2libPage0, c2libPage1]).2.length = 0 := by decide

/-- Claim C4 (amended): for every digest packet all of whose entry count
bytes are at most 128, the two files decode identical digest pages (page
number, instance id, last-page flag, digest timestamp and entries all
agree); for larger count bytes they disagree, and their reassembled
digests differ in general. -/
theorem claim4_amended_theorem (packet : List Nat)
    (hsmall : ∀ e ∈ (Lib.decodeDigestPage packet).entries, e.count ≤ 128) :
    P0.decodeDigestPage packet = Lib.decodeDigestPage packet := by
  have he := digestPageLoop_eq (packet.drop 30)
    ((hexVal (substr (packet.drop 30) 2 2) &&& 0x1f) + 2)
    ((hexVal (substr (packet.drop 30) 2 2) &&& 0x1f) + 2) 9 (by omega)
    hsmall
  simp only [P0.decodeDigestPage, Lib.decodeDigestPage, he]

theorem claim4_witness :
    (∀ e ∈ (Lib.decodeDigestPage c4smallPacket).entries, e.count ≤ 128) ∧
    P0.decodeDigestPage c4smallPacket = Lib.decodeDigestPage c4smallPacket :=
  ⟨by decide, claim4_amended_theorem c4smallPacket (by decide)⟩

/-! ## First-body-byte extraction (claim C7) -/

theorem hexVal_singleton (a : Nat) : hexVal [a] = a := by
  simp [hexVal]

theorem hexVal_pair (a b : Nat) : hexVal [a, b] = 16 * a + b := by
  simp [hexVal]

theorem take_drop_one (l : List Nat) (i : Nat) (h : i < l.length) :
    (l.drop i).take 1 = [l.getD i 0] := by
  rw [List.drop_eq_getElem_cons h, List.take_succ_cons, List.take_zero,
      List.getD_eq_getElem?_getD, List.getElem?_eq_getElem h]
  rfl

theorem take_drop_two (l : List Nat) (i : Nat) (h : i + 1 < l.length) :
    (l.drop i).take 2 = [l.getD i 0, l.getD (i + 1) 0] := by
  rw [List.drop_eq_getElem_cons (by omega : i < l.length),
      List.drop_eq_getElem_cons h, List.take_succ_cons, List.take_succ_cons,
      List.take_zero, List.getD_eq_getElem?_getD,
      List.getElem?_eq_getElem (by omega : i < l.length),
      List.getD_eq_getElem?_getD, List.getElem?_eq_getElem h]
  rfl

/-- Claim C7 counterexample: on the packet `c7packet`, whose first body
byte is `0x3f`, the decoded cyclic count and page number are `1` (the high
nibble `3` shifted right once), not `(0x3f >> 1) & 0xf = 15` as the claim
states — in both files. -/
theorem claim7_counterexample :
    ¬ ((Lib.processProximityPacket c7packet).cyclicCount =
        (hexVal (substr (c7packet.drop 30) 2 2) >>> 1) &&& 0xf ∧
       (Lib.decodeDigestPage c7packet).pageNumber =
        (hexVal (substr (c7packet.drop 30) 2 2) >>> 1) &&& 0xf ∧
       (P0.processProximityPacket c7packet 5).cyclicCount =
        (hexVal (substr (c7packet.drop 30) 2 2) >>> 1) &&& 0xf) := by decide

/-- Claim C7 (amended): for every well-formed packet (hexadecimal digits,
at least 34 of them), the decoded `cyclicCount` of a proximity packet and
the decoded `pageNumber` of a digest packet equal the high nibble of the
first body byte shifted right once, i.e. `(byte >> 5) & 0x7`, so both
range over 0–7 — the source parses a single hexadecimal character (the
high nibble) and shifts it right once. -/
theorem claim7_amended_theorem (packet : List Nat) (ts : Nat)
    (hlen : 34 ≤ packet.length) (hdig : ∀ d ∈ packet, d < 16) :
    (Lib.processProximityPacket packet).cyclicCount =
      hexVal (substr (packet.drop 30) 2 2) >>> 5 ∧
    (Lib.decodeDigestPage packet).pageNumber =
      hexVal (substr (packet.drop 30) 2 2) >>> 5 ∧
    (P0.processProximityPacket packet ts).cyclicCount =
      hexVal (substr (packet.drop 30) 2 2) >>> 5 ∧
    (P0.decodeDigestPage packet).pageNumber =
      hexVal (substr (packet.drop 30) 2 2) >>> 5 ∧
    hexVal (substr (packet.drop 30) 2 2) >>> 5 < 8 := by
  have h32 : 32 < packet.length := by omega
  have h33 : 32 + 1 < packet.length := by omega
  have hs1 : substr (packet.drop 30) 2 1 = [packet.getD 32 0] := by
    rw [substr, List.drop_drop]
    exact take_drop_one packet 32 h32
  have hs2 : substr (packet.drop 30) 2 2 =
      [packet.getD 32 0, packet.getD 33 0] := by
    rw [substr, List.drop_drop]
    exact take_drop_two packet 32 h33
  have hd32 : packet.getD 32 0 < 16 := by
    rw [List.getD_eq_getElem?_getD, List.getElem?_eq_getElem h32]
    exact hdig _ (List.getElem_mem h32)
  have hd33 : packet.getD 33 0 < 16 := by
    rw [List.getD_eq_getElem?_getD, List.getElem?_eq_getElem h33]
    exact hdig _ (List.getElem_mem h33)
  have hbyte : hexVal (substr (packet.drop 30) 2 2) =
      16 * packet.getD 32 0 + packet.getD 33 0 := by
    rw [hs2, hexVal_pair]
  have hshift : packet.getD 32 0 >>> 1 =
      (16 * packet.getD 32 0 + packet.getD 33 0) >>> 5 := by
    simp only [Nat.shiftRight_eq_div_pow]
    omega
  have hlt : (16 * packet.getD 32 0 + packet.getD 33 0) >>> 5 < 8 := by
    simp only [Nat.shiftRight_eq_div_pow]
    omega
  have hcyc : hexVal (substr (packet.drop 30) 2 1) >>> 1 =
      hexVal (substr (packet.drop 30) 2 2) >>> 5 := by
    rw [hs1, hexVal_singleton, hbyte]
    exact hshift
  exact ⟨hcyc, hcyc, hcyc, hcyc, hbyte ▸ hlt⟩

theorem claim7_witness :
    34 ≤ c7packet.length ∧ (∀ d ∈ c7packet, d < 16) ∧
    ((Lib.processProximityPacket c7packet).cyclicCount =
      hexVal (substr (c7packet.drop 30) 2 2) >>> 5 ∧
    (Lib.decodeDigestPage c7packet).pageNumber =
      hexVal (substr (c7packet.drop 30) 2 2) >>> 5 ∧
    (P0.processProximityPacket c7packet 5).cyclicCount =
      hexVal (substr (c7packet.drop 30) 2 2) >>> 5 ∧
    (P0.decodeDigestPage c7packet).pageNumber =
      hexVal (substr (c7packet.drop 30) 2 2) >>> 5 ∧
    hexVal (substr (c7packet.drop 30) 2 2) >>> 5 < 8) :=
  ⟨by decide, by decide,
   claim7_amended_theorem c7packet 5 (by decide) (by decide)⟩

/-- The low-6-bit mask is reduction modulo 64. -/
theorem and_63_eq_mod (x : Nat) : x &&& 63 = x % 64 := by
  have h := Nat.and_pow_two_sub_one_eq_mod x 6
  norm_num at h
  exact h

/-- Claim C8: for every raw byte value 0–255 and either flag, the
acceleration decoder agrees with the specification's description (shift
right 2 bits when upper, mask to the low 6 bits, sentinel 32 absent,
33–63 negative as (v−64)/16, 0–31 as v/16); in particular
`toAcceleration 32 false` is absent, `toAcceleration 0 false = 0`,
`toAcceleration 16 false = 1` and `toAcceleration 48 false = −1`.  (For
the upper field the source omits the mask, but a byte ≤ 255 shifted right
2 is already ≤ 63, so the masked specification agrees.) -/
theorem claim8_theorem (byte : Nat) (u : Bool) (hb : byte ≤ 255) :
    toAcceleration byte u = decodeAccelerationSpec byte u ∧
    toAcceleration 32 false = none ∧
    toAcceleration 0 false = some 0 ∧
    toAcceleration 16 false = some 1 ∧
    toAcceleration 48 false = some (-1) := by
  refine ⟨?_, by norm_num [toAcceleration, and_63_eq_mod], by norm_num [toAcceleration, and_63_eq_mod],
    by norm_num [toAcceleration, and_63_eq_mod], by norm_num [toAcceleration, and_63_eq_mod]⟩
  cases u with
  | false =>
    have hle : byte &&& 63 ≤ 63 := Nat.and_le_right
    simp only [toAcceleration, decodeAccelerationSpec, Bool.false_eq_true,
      if_false]
    by_cases h32 : byte &&& 63 = 32
    · simp [h32]
    · by_cases hgt : byte &&& 63 > 31
      · have hcond : 33 ≤ byte &&& 63 ∧ byte &&& 63 ≤ 63 := by omega
        simp [h32, hgt, hcond]
      · have hcond : ¬ (33 ≤ byte &&& 63 ∧ byte &&& 63 ≤ 63) := by omega
        simp [h32, hgt, hcond]
  | true =>
    have hsh : byte >>> 2 ≤ 63 := by
      simp only [Nat.shiftRight_eq_div_pow]
      omega
    have hmask : byte >>> 2 &&& 63 = byte >>> 2 := by
      rw [and_63_eq_mod]
      omega
    simp only [toAcceleration, decodeAccelerationSpec, if_true]
    rw [hmask]
    by_cases h32 : byte >>> 2 = 32
    · simp [h32]
    · by_cases hgt : byte >>> 2 > 31
      · have hcond : 33 ≤ byte >>> 2 ∧ byte >>> 2 ≤ 63 := by omega
        simp [h32, hgt, hcond]
      · have hcond : ¬ (33 ≤ byte >>> 2 ∧ byte >>> 2 ≤ 63) := by omega
        simp [h32, hgt, hcond]

theorem claim8_witness :
    48 ≤ 255 ∧
    (toAcceleration 48 true = decodeAccelerationSpec 48 true ∧
     toAcceleration 32 false = none ∧
     toAcceleration 0 false = some 0 ∧
     toAcceleration 16 false = some 1 ∧
     toAcceleration 48 false = some (-1)) :=
  ⟨by norm_num, claim8_theorem 48 true (by norm_num)⟩

/-- Claim C9: a wire packet whose 4-byte signature at the fixed offset
matches neither DirAct signature, and a proximity-signature (resp.
digest-signature) packet delivered while no proximity (resp. digest)
handler is registered, produce no action in either file: the instance —
including the accumulator map — is unchanged and no handler is invoked
(the functions are total, so no failure is raised). -/
theorem claim9_theorem (instP : P0.Digester) (instL : Lib.Digester)
    (packet : List Nat) (ts : Nat)
    (h : (substr packet DIRACT_PACKET_SIGNATURE_OFFSET 8 ≠
            DIRACT_PROXIMITY_SIGNATURE ∧
          substr packet DIRACT_PACKET_SIGNATURE_OFFSET 8 ≠
            DIRACT_DIGEST_SIGNATURE) ∨
         (substr packet DIRACT_PACKET_SIGNATURE_OFFSET 8 =
            DIRACT_PROXIMITY_SIGNATURE ∧
          instP.hasProximityHandler = false ∧
          instL.hasProximityHandler = false) ∨
         (substr packet DIRACT_PACKET_SIGNATURE_OFFSET 8 =
            DIRACT_DIGEST_SIGNATURE ∧
          instP.hasDigestHandler = false ∧
          instL.hasDigestHandler = false)) :
    P0.processPacket instP packet ts = (instP, []) ∧
    Lib.processPacket instL packet = (instL, []) := by
  have hne : ¬ (DIRACT_PROXIMITY_SIGNATURE = DIRACT_DIGEST_SIGNATURE) := by
    decide
  have hne' : ¬ (DIRACT_DIGEST_SIGNATURE = DIRACT_PROXIMITY_SIGNATURE) := by
    decide
  rcases h with ⟨h1, h2⟩ | ⟨h1, h2, h3⟩ | ⟨h1, h2, h3⟩
  · constructor
    · simp [P0.processPacket, h1, h2]
    · simp [Lib.processPacket, h1, h2]
  · constructor
    · simp [P0.processPacket, h1, h2, hne]
    · simp [Lib.processPacket, h1, h3, hne]
  · constructor
    · simp [P0.processPacket, h1, h2, hne']
    · simp [Lib.processPacket, h1, h3, hne']

theorem claim9_witness :
    (substr c9unknownPacket DIRACT_PACKET_SIGNATURE_OFFSET 8 ≠
       DIRACT_PROXIMITY_SIGNATURE ∧
     substr c9unknownPacket DIRACT_PACKET_SIGNATURE_OFFSET 8 ≠
       DIRACT_DIGEST_SIGNATURE) ∧
    (P0.processPacket ⟨true, true, []⟩ c9unknownPacket 5 =
      (⟨true, true, []⟩, []) ∧
     Lib.processPacket ⟨true, true, []⟩ c9unknownPacket =
      (⟨true, true, []⟩, [])) :=
  ⟨⟨by decide, by decide⟩,
   claim9_theorem ⟨true, true, []⟩ ⟨true, true, []⟩ c9unknownPacket 5
     (Or.inl ⟨by decide, by decide⟩)⟩

/-- Claim C10: whenever the digest-ready handler is invoked, it receives
(the address of) the very accumulator object that remains bound to the
instance id in the reassembler's map — not a copy; the value visible at
call time has its `numberOfInteractions` field already deleted and
`isHandled` still unset, and only after the call does that same object
carry `isHandled = true`. -/
theorem claim10_theorem (s : HeapM.State) (id : List Nat) (dts : Nat)
    (b : Bool) (pn : Nat) (pg : List Entry) (ts a : Nat) (dcall : P0.Digest)
    (hwf : ∀ p ∈ s.digests, p.2 < s.heap.length)
    (hem : (HeapM.updateDigest s id dts b pn pg ts).2 = [(a, dcall)]) :
    HeapM.mapGetA (HeapM.updateDigest s id dts b pn pg ts).1.digests id =
      some a ∧
    dcall.numberOfInteractions = none ∧
    dcall.isHandled = false ∧
    (HeapM.updateDigest s id dts b pn pg ts).1.heap[a]? =
      some { dcall with isHandled := true } := by
  unfold HeapM.updateDigest at hem ⊢
  cases hg : HeapM.mapGetA s.digests id with
  | none =>
    rw [hg] at hem
    dsimp only at hem ⊢
    have hd : (s.heap ++
        [P0.createDigest id dts b pn pg ts])[s.heap.length]? =
        some (P0.createDigest id dts b pn pg ts) := by
      rw [List.getElem?_append_right (le_refl _)]
      simp
    unfold HeapM.emitIfComplete at hem ⊢
    dsimp only at hem ⊢
    rw [hd] at hem ⊢
    dsimp only at hem ⊢
    by_cases hc : P0.isDigestComplete (P0.createDigest id dts b pn pg ts) =
        true
    · simp only [hc, if_true] at hem ⊢
      simp only [List.cons.injEq, Prod.mk.injEq, and_true] at hem
      obtain ⟨ha, hdc⟩ := hem
      subst ha
      rw [← hdc]
      refine ⟨?_, rfl, rfl, ?_⟩
      · exact HeapM.mapGetA_mapSetA_self _ _ _
      · rw [List.getElem?_set]
        simp
    · simp [hc] at hem
  | some addr =>
    rw [hg] at hem
    dsimp only at hem ⊢
    have haddr : addr < s.heap.length :=
      hwf (id, addr) (HeapM.mem_of_mapGetA hg)
    have hex : s.heap[addr]? = some (s.heap[addr]) :=
      List.getElem?_eq_getElem haddr
    rw [hex] at hem ⊢
    dsimp only at hem ⊢
    by_cases hts : (s.heap[addr]).digestTimestamp ≠ dts
    · simp only [if_pos hts] at hem ⊢
      have hd : (s.heap ++
          [P0.createDigest id dts b pn pg ts])[s.heap.length]? =
          some (P0.createDigest id dts b pn pg ts) := by
        rw [List.getElem?_append_right (le_refl _)]
        simp
      unfold HeapM.emitIfComplete at hem ⊢
      dsimp only at hem ⊢
      rw [hd] at hem ⊢
      dsimp only at hem ⊢
      by_cases hc : P0.isDigestComplete
          (P0.createDigest id dts b pn pg ts) = true
      · simp only [hc, if_true] at hem ⊢
        simp only [List.cons.injEq, Prod.mk.injEq, and_true] at hem
        obtain ⟨ha, hdc⟩ := hem
        subst ha
        rw [← hdc]
        refine ⟨?_, rfl, rfl, ?_⟩
        · exact HeapM.mapGetA_mapSetA_self _ _ _
        · rw [List.getElem?_set]
          simp
      · simp [hc] at hem
    · by_cases hh : (s.heap[addr]).isHandled = true
      · simp [hts, hh] at hem
      · simp only [if_neg hts, if_neg hh, if_false] at hem ⊢
        have hset : (s.heap.set addr
            (P0.addDigestPage (s.heap[addr]) b pn pg))[addr]? =
            some (P0.addDigestPage (s.heap[addr]) b pn pg) := by
          rw [List.getElem?_set]
          simp [haddr]
        unfold HeapM.emitIfComplete at hem ⊢
        dsimp only at hem ⊢
        rw [hset] at hem ⊢
        dsimp only at hem ⊢
        by_cases hc : P0.isDigestComplete
            (P0.addDigestPage (s.heap[addr]) b pn pg) = true
        · simp only [hc, if_true] at hem ⊢
          simp only [List.cons.injEq, Prod.mk.injEq, and_true] at hem
          obtain ⟨ha, hdc⟩ := hem
          subst ha
          rw [← hdc]
          refine ⟨hg, rfl, ?_, ?_⟩
          · show (s.heap[addr]).isHandled = false
            exact Bool.not_eq_true _ ▸ hh
          · rw [List.getElem?_set]
            simp [List.length_set, haddr]
        · simp [hc] at hem

theorem claim10_witness :
    (∀ p ∈ (HeapM.State.mk [] []).digests, p.2 < ([] : List P0.Digest).length) ∧
    (HeapM.updateDigest ⟨[], []⟩ devA 1 true 0 [entX 1] 100).2 =
      [(0, c10digest)] ∧
    (HeapM.mapGetA (HeapM.updateDigest ⟨[], []⟩ devA 1 true 0 [entX 1]
        100).1.digests devA = some 0 ∧
      c10digest.numberOfInteractions = none ∧
      c10digest.isHandled = false ∧
      (HeapM.updateDigest ⟨[], []⟩ devA 1 true 0 [entX 1]
          100).1.heap[0]? = some { c10digest with isHandled := true }) :=
  ⟨by simp, by decide,
   claim10_theorem ⟨[], []⟩ devA 1 true 0 [entX 1] 100 0 c10digest
     (by simp) (by decide)⟩
